import Mathlib

/-!
# VendorCalc — verification of the sync / invoice-numbering core

Shallow embedding of the data-access and context layer of the VendorCalc
repository (`src/lib/db.ts`, `src/lib/firebase.ts`, `src/context/AppContext.tsx`,
and the UI callers `CalculatorView.handleShowBill` / `SettingsView.handleAdd`).

JavaScript numbers that hold money amounts are modelled as `Rat`; counter
values stored in the `settings` table are modelled as the strings the code
actually stores (`String(next)`), with `parseInt` modelled on strings.
Asynchronous storage calls are modelled by explicit state passing; a promise
that may reject is modelled as `Except String α`.
-/

namespace VendorCalc

/-- Decimal digit character, used to model JavaScript `String(n)` for a
natural number (the only numbers the invoice counter ever stores). -/
def digitOfNat (n : Nat) : Char :=
  match n with
  | 0 => '0' | 1 => '1' | 2 => '2' | 3 => '3' | 4 => '4'
  | 5 => '5' | 6 => '6' | 7 => '7' | 8 => '8' | _ => '9'

/-- Numeric value of a digit character (inverse of `digitOfNat` below 10). -/
def digitVal (c : Char) : Nat := c.toNat - 48

/-- Decimal digits of `n`, most significant first; `fuel`-structured so that
the kernel can evaluate it (fuel `n + 1` always suffices). -/
def natToDigitsAux : Nat → Nat → List Char
  | 0, _ => []
  | fuel + 1, n =>
    if n < 10 then [digitOfNat n]
    else natToDigitsAux fuel (n / 10) ++ [digitOfNat (n % 10)]

/-- Model of JavaScript `String(n)` for a non-negative integer-valued number:
its decimal representation. -/
def natRepr (n : Nat) : String := ⟨natToDigitsAux (n + 1) n⟩

/-- Value of a digit string read most-significant-first. -/
def digitsToNat (cs : List Char) : Nat :=
  cs.foldl (fun a c => 10 * a + digitVal c) 0

/-- Leading-digit-run parse: JavaScript `parseInt` keeps the longest prefix
of decimal digits and yields `NaN` (here `none`) when there is none. -/
def parseDigits (cs : List Char) : Option Nat :=
  let ds := cs.takeWhile (fun c => c.isDigit)
  if ds.isEmpty then none else some (digitsToNat ds)

/-- Model of JavaScript `parseInt(s)` (radix 10): optional sign, then the
longest run of leading digits; `none` models `NaN`.  The counter strings the
code feeds it (`String(number)` outputs) never carry leading whitespace, so
whitespace skipping is omitted. -/
def jsParseInt (s : String) : Option Int :=
  match s.data with
  | [] => none
  | c :: t =>
    if c = '-' then (parseDigits t).map (fun v => -(v : Int))
    else if c = '+' then (parseDigits t).map (fun v => (v : Int))
    else (parseDigits (c :: t)).map (fun v => (v : Int))

/-- Model of JavaScript `String(x)` where `x` is the result of integer
arithmetic that may be `NaN` (`none`). -/
def jsStringOfNum : Option Int → String
  | none => "NaN"
  | some n => if n < 0 then "-" ++ natRepr n.natAbs else natRepr n.toNat

/-- Model of JavaScript `s.padStart(w, c)`: left-pad to width `w`
(never truncates). -/
def padStart (s : String) (w : Nat) (c : Char) : String :=
  ⟨List.replicate (w - s.data.length) c ++ s.data⟩

/-- Model of JavaScript `s.trim()`: strip leading and trailing whitespace. -/
def jsTrim (s : String) : String :=
  ⟨((s.data.dropWhile Char.isWhitespace).reverse.dropWhile Char.isWhitespace).reverse⟩

-- ── Data model (persisted schema of `src/types`, as used by the code) ───────

/-- Catalogue entry (`products` table: `++id, name, category`). -/
structure Product where
  id : Nat
  name : String
  price : Rat
  category : String
deriving Repr, DecidableEq

/-- Immutable line snapshot embedded in an invoice. -/
structure BillItem where
  name : String
  price : Rat
  quantity : Nat
  total : Rat
deriving Repr, DecidableEq

/-- Persisted invoice (`history` table). -/
structure HistoryItem where
  id : Nat
  invoice_no : String
  vendor_name : String
  customer_name : String
  items : List BillItem
  grand_total : Rat
  discount : Rat
  discount_amount : Rat
  final_total : Rat
  created_at : String
deriving Repr, DecidableEq

/-- `Omit<HistoryItem, 'id' | 'invoice_no' | 'created_at'>` — the draft the
UI hands to `saveBill`. -/
structure BillDraft where
  vendor_name : String
  customer_name : String
  items : List BillItem
  grand_total : Rat
  discount : Rat
  discount_amount : Rat
  final_total : Rat
deriving Repr, DecidableEq

/-- The Dexie local store: `products` and `history` with auto-incrementing
ids (next key tracked explicitly), and the two settings rows.  A settings
value of `none` models an absent row. -/
structure LocalState where
  products : List Product
  history : List HistoryItem
  invoiceCounter : Option String
  vendorName : Option String
  nextProductId : Nat
  nextHistoryId : Nat
deriving Repr, DecidableEq

/-- Fresh store: empty tables, Dexie auto-increment starts at 1. -/
def LocalState.empty : LocalState :=
  ⟨[], [], none, none, 1, 1⟩

-- ── Local store primitives (Dexie operations used by the code) ──────────────

/-- `db.products.add({name, price, category})`: assigns the next id. -/
def productsAdd (st : LocalState) (name : String) (price : Rat)
    (category : String) : Nat × LocalState :=
  let id := st.nextProductId
  (id, { st with
          products := st.products ++ [⟨id, name, price, category⟩],
          nextProductId := id + 1 })

/-- `db.products.get(id)`: primary-key lookup. -/
def productsGet (st : LocalState) (id : Nat) : Option Product :=
  st.products.find? (fun p => p.id = id)

/-- `db.products.put(p)` with an explicit id: insert or replace; Dexie keeps
its auto-increment counter beyond any explicitly supplied key. -/
def productsPut (st : LocalState) (p : Product) : LocalState :=
  if st.products.any (fun q => q.id = p.id) then
    { st with products := st.products.map (fun q => if q.id = p.id then p else q) }
  else
    { st with products := st.products ++ [p],
              nextProductId := max st.nextProductId (p.id + 1) }

/-- `db.products.update(id, {name, price, category})`: merge into the
existing record; a missing id is a no-op (Dexie returns 0, does not throw). -/
def productsUpdate (st : LocalState) (id : Nat) (name : String) (price : Rat)
    (category : String) : LocalState :=
  { st with products :=
      st.products.map (fun p =>
        if p.id = id then { p with name := name, price := price, category := category }
        else p) }

/-- `db.products.delete(id)`. -/
def productsDelete (st : LocalState) (id : Nat) : LocalState :=
  { st with products := st.products.filter (fun p => p.id ≠ id) }

/-- `db.history.add(bill)` for a bill without id: assigns the next id. -/
def historyAdd (st : LocalState) (mk : Nat → HistoryItem) : HistoryItem × LocalState :=
  let id := st.nextHistoryId
  let item := mk id
  (item, { st with history := st.history ++ [item], nextHistoryId := id + 1 })

/-- `db.history.get(id)`. -/
def historyGet (st : LocalState) (id : Nat) : Option HistoryItem :=
  st.history.find? (fun h => h.id = id)

/-- `db.history.put(h)` with an explicit id. -/
def historyPut (st : LocalState) (h : HistoryItem) : LocalState :=
  if st.history.any (fun g => g.id = h.id) then
    { st with history := st.history.map (fun g => if g.id = h.id then h else g) }
  else
    { st with history := st.history ++ [h],
              nextHistoryId := max st.nextHistoryId (h.id + 1) }

/-- `db.history.delete(id)`. -/
def historyDelete (st : LocalState) (id : Nat) : LocalState :=
  { st with history := st.history.filter (fun h => h.id ≠ id) }

-- ── Sequence allocator (`getNextInvoiceNo`, src/lib/db.ts) ──────────────────

/-- The pure section of `getNextInvoiceNo` between its two awaits: from the
settings row read (`none` = absent), compute the formatted invoice number and
the string written back.  `row?.value || '0'` treats an absent row and an
empty string alike; `parseInt` may yield `NaN` (`none`), which propagates
through `+ 1` and `String(...)`. -/
def getNextInvoiceNoCompute (row : Option String) : String × String :=
  let raw := match row with
    | none => "0"
    | some v => if v = "" then "0" else v
  let next := (jsParseInt raw).map (fun n => n + 1)
  let nextStr := jsStringOfNum next
  ("INV-" ++ padStart nextStr 3 '0', nextStr)

/-- A completed (non-interleaved) `getNextInvoiceNo` call: read the counter
row, compute, persist the new value, return the formatted number. -/
def getNextInvoiceNo (st : LocalState) : String × LocalState :=
  let (inv, v) := getNextInvoiceNoCompute st.invoiceCounter
  (inv, { st with invoiceCounter := some v })

/-- Two `getNextInvoiceNo` calls interleaved at the await suspension points so
that both `db.settings.get` reads complete before either `db.settings.put`
write (call A reads, call B reads, A writes, B writes).  Returns both
formatted numbers and the final counter row. -/
def getNextInvoiceNoInterleaved (counter : Option String) :
    String × String × Option String :=
  let rowA := counter
  let rowB := counter
  let (invA, _vA) := getNextInvoiceNoCompute rowA
  let (invB, vB) := getNextInvoiceNoCompute rowB
  (invA, invB, some vB)

-- ── Remote replica (one authenticated user's Firestore collections) ─────────

/-- One user's remote document collections, `users/{uid}/products/{id}` and
`users/{uid}/history/{id}`: document id (the stringified local id) paired
with the stored record. -/
structure RemoteState where
  products : List (String × Product)
  history : List (String × HistoryItem)
deriving Repr, DecidableEq

/-- `setDoc`: create the document or overwrite it in place. -/
def setDocIn {α : Type} (docs : List (String × α)) (k : String) (v : α) :
    List (String × α) :=
  if docs.any (fun kv => kv.1 = k) then
    docs.map (fun kv => if kv.1 = k then (k, v) else kv)
  else docs ++ [(k, v)]

/-- `pushProductToFirestore`: `setDoc(doc(..., 'products', String(product.id)), product)`. -/
def pushProductToFirestore (r : RemoteState) (p : Product) : RemoteState :=
  { r with products := setDocIn r.products (natRepr p.id) p }

/-- `pushHistoryToFirestore`. -/
def pushHistoryToFirestore (r : RemoteState) (h : HistoryItem) : RemoteState :=
  { r with history := setDocIn r.history (natRepr h.id) h }

-- ── Reconciler ──────────────────────────────────────────────────────────────

/-- Insertion step of the descending `created_at` sort used by
`history.orderBy('created_at').reverse().toArray()`. -/
def insertByCreatedAsc (h : HistoryItem) : List HistoryItem → List HistoryItem
  | [] => [h]
  | x :: xs =>
    if h.created_at ≤ x.created_at then h :: x :: xs
    else x :: insertByCreatedAsc h xs

/-- Ascending `created_at` sort (IndexedDB index order). -/
def sortByCreatedAsc : List HistoryItem → List HistoryItem
  | [] => []
  | x :: xs => insertByCreatedAsc x (sortByCreatedAsc xs)

/-- `orderBy('created_at').reverse().toArray()`. -/
def historyByCreatedDesc (st : LocalState) : List HistoryItem :=
  (sortByCreatedAsc st.history).reverse

/-- `pushAllToFirestore`: write every local product and invoice to the remote
store (local ids are always defined in this model, so the
`p.id !== undefined` guards always pass). -/
def pushAllToFirestore (st : LocalState) (r : RemoteState) : RemoteState :=
  let r1 := st.products.foldl pushProductToFirestore r
  (historyByCreatedDesc st).foldl pushHistoryToFirestore r1

/-- `syncFromFirestore`: for every remote document, insert it locally only
when no local record of the same id exists (`if (!local) put`). -/
def syncFromFirestore (st : LocalState) (r : RemoteState) : LocalState :=
  let st1 := r.products.foldl
    (fun st kv =>
      match productsGet st kv.2.id with
      | some _ => st
      | none => productsPut st kv.2) st
  r.history.foldl
    (fun st kv =>
      match historyGet st kv.2.id with
      | some _ => st
      | none => historyPut st kv.2) st1

/-- Sign-in reconciliation (`signInWithGoogle` after a successful popup):
push all local records, then pull remote-only records. -/
def signInReconcile (st : LocalState) (r : RemoteState) : LocalState × RemoteState :=
  let r' := pushAllToFirestore st r
  (syncFromFirestore st r', r')

-- ── Mutation façade (AppContext callbacks) ──────────────────────────────────

/-- The outcome the awaiting caller observes from
`promise.catch(console.error)`: a rejection is consumed by the `catch`
handler (which only logs), so the awaited promise always resolves. -/
def catchLog : Except String Unit → Except String Unit
  | Except.ok _ => Except.ok ()
  | Except.error _ => Except.ok ()

/-- `if (user) await push(...).catch(console.error)`: the mirror runs only
when signed in, and its failure is always swallowed. -/
def mirrorStep (signedIn : Bool) (remote : Except String Unit) :
    Except String Unit :=
  if signedIn then catchLog remote else Except.ok ()

/-- `addProduct` callback: add locally, build the record, best-effort mirror,
toast; resolves with no value (`Promise<void>`). -/
def addProduct (st : LocalState) (name : String) (price : Rat)
    (category : String) (signedIn : Bool) (remote : Except String Unit) :
    Except String LocalState := do
  let (id, st') := productsAdd st name price category
  let prod : Product := ⟨id, name, price, category⟩
  let _ ← mirrorStep signedIn remote
  let _ := prod
  pure st'

/-- `updateProduct` callback. -/
def updateProduct (st : LocalState) (id : Nat) (name : String) (price : Rat)
    (category : String) (signedIn : Bool) (remote : Except String Unit) :
    Except String LocalState := do
  let st' := productsUpdate st id name price category
  let _ ← mirrorStep signedIn remote
  pure st'

/-- `deleteProduct` callback. -/
def deleteProduct (st : LocalState) (id : Nat) (signedIn : Bool)
    (remote : Except String Unit) : Except String LocalState := do
  let st' := productsDelete st id
  let _ ← mirrorStep signedIn remote
  pure st'

/-- `saveBill` callback: allocate the invoice number, stamp `created_at`,
insert the draft's fields verbatim (nothing recomputed), best-effort mirror,
return the persisted record. -/
def saveBill (st : LocalState) (draft : BillDraft) (now : String)
    (signedIn : Bool) (remote : Except String Unit) :
    Except String (HistoryItem × LocalState) := do
  let (invoice_no, st1) := getNextInvoiceNo st
  let (saved, st2) := historyAdd st1 (fun id =>
    { id := id
      invoice_no := invoice_no
      vendor_name := draft.vendor_name
      customer_name := draft.customer_name
      items := draft.items
      grand_total := draft.grand_total
      discount := draft.discount
      discount_amount := draft.discount_amount
      final_total := draft.final_total
      created_at := now })
  let _ ← mirrorStep signedIn remote
  pure (saved, st2)

/-- `deleteHistoryItem` callback. -/
def deleteHistoryItem (st : LocalState) (id : Nat) (signedIn : Bool)
    (remote : Except String Unit) : Except String LocalState := do
  let st' := historyDelete st id
  let _ ← mirrorStep signedIn remote
  pure st'

-- ── Export / import (`exportJSON`, `importJSON`) ────────────────────────────

/-- A field of the parsed backup object: either an array of records or
anything else (missing, `null`, object, scalar — all fail `Array.isArray`). -/
inductive JsArrField (α : Type) where
  | arr (xs : List α)
  | nonArray
deriving Repr, DecidableEq

/-- The object `JSON.parse` produced from the backup file. -/
structure ParsedBackup where
  products : JsArrField Product
  history : JsArrField HistoryItem
deriving Repr, DecidableEq

/-- What reading and parsing the chosen file yields: `readError` models
`file.text()` rejecting or `JSON.parse` throwing. -/
inductive ImportInput where
  | readError (e : String)
  | parsed (d : ParsedBackup)
deriving Repr, DecidableEq

/-- A toast notification. -/
inductive Toast where
  | success (msg : String)
  | error (msg : String)
deriving Repr, DecidableEq

/-- What an `importJSON` call leaves behind: the local state, the toast
shown, and the outcome the awaiting caller observes for the returned
promise. -/
structure ImportOutcome where
  state : LocalState
  toast : Toast
  promise : Except String Unit
deriving Repr

/-- Fault schedule for the storage operations `importJSON` performs, in
program order (clear products = 0, clear history = 1, then one per inserted
record): `some e` makes that operation reject with `e`, before its effect. -/
def noFaults : Nat → Option String := fun _ => none

/-- The reinsert loop `for (const p of data.products) await add({name, price,
category: p.category || 'General'})`; a falsy (empty) category defaults. -/
def addImportedProducts (faults : Nat → Option String) :
    Nat → List Product → LocalState → LocalState × Except String Unit
  | _, [], st => (st, Except.ok ())
  | k, p :: ps, st =>
    match faults k with
    | some e => (st, Except.error e)
    | none =>
      let (_, st') := productsAdd st p.name p.price
        (if p.category = "" then "General" else p.category)
      addImportedProducts faults (k + 1) ps st'

/-- The reinsert loop `for (const h of data.history) { const {id: _id,
...rest} = h; await add(rest) }`: drops only the id, keeps every other
field, gets a fresh id. -/
def addImportedHistory (faults : Nat → Option String) :
    Nat → List HistoryItem → LocalState → LocalState × Except String Unit
  | _, [], st => (st, Except.ok ())
  | k, h :: hs, st =>
    match faults k with
    | some e => (st, Except.error e)
    | none =>
      let (_, st') := historyAdd st (fun id => { h with id := id })
      addImportedHistory faults (k + 1) hs st'

/-- The `try` body of `importJSON`: read/parse, validate that both fields
are arrays, clear both collections, reinsert.  Returns the state reached
and either the two restored counts or the error thrown. -/
def importJSONBody (input : ImportInput) (faults : Nat → Option String)
    (st : LocalState) : LocalState × Except String (Nat × Nat) :=
  match input with
  | ImportInput.readError e => (st, Except.error e)
  | ImportInput.parsed d =>
    match d.products, d.history with
    | JsArrField.arr ps, JsArrField.arr hs =>
      match faults 0 with
      | some e => (st, Except.error e)
      | none =>
        let st0 := { st with products := [] }
        match faults 1 with
        | some e => (st0, Except.error e)
        | none =>
          let st1 := { st0 with history := [] }
          match addImportedProducts faults 2 ps st1 with
          | (st2, Except.error e) => (st2, Except.error e)
          | (st2, Except.ok _) =>
            match addImportedHistory faults (2 + ps.length) hs st2 with
            | (st3, Except.error e) => (st3, Except.error e)
            | (st3, Except.ok _) => (st3, Except.ok (ps.length, hs.length))
    | _, _ => (st, Except.error "Invalid backup file format")

/-- `importJSON`: the whole body runs inside `try/catch`; the catch shows an
error toast and resolves, so the promise the caller awaits never rejects. -/
def importJSON (st : LocalState) (input : ImportInput)
    (faults : Nat → Option String) : ImportOutcome :=
  match importJSONBody input faults st with
  | (st', Except.ok (np, nh)) =>
    ⟨st', Toast.success ("Restored " ++ natRepr np ++ " products & " ++
      natRepr nh ++ " invoices"), Except.ok ()⟩
  | (st', Except.error e) =>
    ⟨st', Toast.error ("Import failed: " ++ e), Except.ok ()⟩

/-- The snapshot `exportJSON` serializes: the products array and the history
array in descending `created_at` order (the `exportedAt` stamp carries no
record data). -/
def exportSnapshot (st : LocalState) : List Product × List HistoryItem :=
  (st.products, historyByCreatedDesc st)

-- ── UI callers that perform the validation the façade omits ─────────────────

/-- `CalculatorView.handleShowBill`: build the line items from positive
quantities, refuse an empty bill or a blank vendor name, otherwise produce
the draft handed to `BillView`/`saveBill` (discount fixed at 0). -/
def handleShowBill (products : List Product) (quantities : Nat → Nat)
    (vendorName customerName : String) : Option BillDraft :=
  let items := (products.filter (fun p => 0 < quantities p.id)).map
    (fun p => ⟨p.name, p.price, quantities p.id,
               p.price * ((quantities p.id : Nat) : Rat)⟩)
  let grandTotal : Rat :=
    products.foldl (fun s p => s + p.price * ((quantities p.id : Nat) : Rat)) 0
  if items.isEmpty then none
  else if jsTrim vendorName = "" then none
  else some ⟨vendorName, customerName, items, grandTotal, 0, 0, grandTotal⟩

/-- `SettingsView.handleAdd`: return early on a blank name or a `NaN` or
negative parsed price, otherwise call `addProduct(name.trim(), price,
'General')`.  The outcome of `parseFloat(newProdPrice)` is modelled as an
input (`none` = `NaN`). -/
def handleAdd (st : LocalState) (newProdName : String)
    (parsedPrice : Option Rat) (signedIn : Bool)
    (remote : Except String Unit) : Except String LocalState :=
  if jsTrim newProdName = "" then pure st
  else
    match parsedPrice with
    | none => pure st
    | some price =>
      if price < 0 then pure st
      else addProduct st (jsTrim newProdName) price "General" signedIn remote

-- ── Spec-side formulas (the properties the claims assert) ───────────────────

/-- `Math.round` on an exact rational: round half toward positive infinity. -/
def jsRound (q : Rat) : Rat := ((⌊q + 1/2⌋ : Int) : Rat)

/-- The invariant the spec asserts of every persisted invoice:
`final_total = grand_total - discount_amount` and
`discount_amount = round(grand_total * discount / 100)`. -/
def specInvoiceInvariant (h : HistoryItem) : Prop :=
  h.final_total = h.grand_total - h.discount_amount ∧
  h.discount_amount = jsRound (h.grand_total * h.discount / 100)

/-- The same formula on a draft. -/
def specDraftInvariant (d : BillDraft) : Prop :=
  d.final_total = d.grand_total - d.discount_amount ∧
  d.discount_amount = jsRound (d.grand_total * d.discount / 100)

instance (h : HistoryItem) : Decidable (specInvoiceInvariant h) := by
  unfold specInvoiceInvariant; infer_instance

instance (d : BillDraft) : Decidable (specDraftInvariant d) := by
  unfold specDraftInvariant; infer_instance

/-- The product identity the round-trip claim compares. -/
def productTuple (p : Product) : String × Rat × String :=
  (p.name, p.price, p.category)

/-- The invoice identity the round-trip claim compares. -/
def invoiceTuple (h : HistoryItem) : String × List BillItem × Rat :=
  (h.invoice_no, h.items, h.final_total)

-- ── Concrete inputs used by the C3 theorems ─────────────────────────────────

/-- A draft `saveBill` accepts whose stored totals violate the spec formula:
`discount = 0` yet `discount_amount = 1`. -/
def c3BadDraft : BillDraft :=
  ⟨"Vendor", "", [⟨"x", 10, 1, 10⟩], 10, 0, 1, 9⟩

/-- The invoice `saveBill` persists for `c3BadDraft` on a fresh store. -/
def c3BadSaved : HistoryItem :=
  ⟨1, "INV-001", "Vendor", "", [⟨"x", 10, 1, 10⟩], 10, 0, 1, 9,
   "2026-02-27T00:00:00.000Z"⟩

/-- The store after saving `c3BadDraft`. -/
def c3BadState : LocalState :=
  ⟨[], [c3BadSaved], some "1", none, 1, 2⟩

/-- The line item `handleShowBill` builds for one product priced 10 with
quantity 1 (the arithmetic kept in the exact shape the fold produces). -/
def c3Item : BillItem := ⟨"x", 10, 1, 10 * ((1 : Nat) : Rat)⟩

/-- The grand total `handleShowBill` computes for that single line. -/
def c3Total : Rat := 0 + 10 * ((1 : Nat) : Rat)

/-- The draft `handleShowBill` hands over for that cart. -/
def c3Draft : BillDraft := ⟨"V", "", [c3Item], c3Total, 0, 0, c3Total⟩

/-- The invoice `saveBill` persists for `c3Draft` on a fresh store. -/
def c3Saved : HistoryItem :=
  ⟨1, "INV-001", "V", "", [c3Item], c3Total, 0, 0, c3Total,
   "2026-02-27T00:00:00.000Z"⟩

/-- The store after saving `c3Draft`. -/
def c3State : LocalState := ⟨[], [c3Saved], some "1", none, 1, 2⟩

/-- A one-product catalogue. -/
def c3Products : List Product := [⟨1, "x", 10, "General"⟩]

-- ── Concrete inputs used by the C4 theorems ─────────────────────────────────

/-- A draft with an empty items list. -/
def c4EmptyDraft : BillDraft := ⟨"Vendor", "", [], 0, 0, 0, 0⟩

/-- The invoice `saveBill` persists for `c4EmptyDraft` on a fresh store. -/
def c4EmptySaved : HistoryItem :=
  ⟨1, "INV-001", "Vendor", "", [], 0, 0, 0, 0, "2026-02-27T00:00:00.000Z"⟩

/-- The store after saving `c4EmptyDraft`: a row was inserted and the
counter advanced. -/
def c4EmptyState : LocalState := ⟨[], [c4EmptySaved], some "1", none, 1, 2⟩

/-- A one-product catalogue for the non-empty-cart side. -/
def c4Products : List Product := [⟨1, "y", 7, "General"⟩]

/-- The line item `handleShowBill` builds from `c4Products` at quantity 1. -/
def c4Item : BillItem := ⟨"y", 7, 1, 7 * ((1 : Nat) : Rat)⟩

/-- Its grand total in the exact shape the fold produces. -/
def c4Total : Rat := 0 + 7 * ((1 : Nat) : Rat)

/-- The draft `handleShowBill` hands over for that cart. -/
def c4Draft : BillDraft := ⟨"V", "", [c4Item], c4Total, 0, 0, c4Total⟩

-- ── Concrete inputs used by the C5 theorems ─────────────────────────────────

/-- The product `addProduct` inserts when called with an empty name and a
negative price — it validates nothing. -/
def c5BadProduct : Product := ⟨1, "", -5, "General"⟩

/-- The store after that insertion. -/
def c5BadState : LocalState := ⟨[c5BadProduct], [], none, none, 2, 1⟩

-- ── Concrete inputs used by the C6, C7 and C10 theorems ─────────────────────

/-- A non-empty store: one product, one invoice, counter at 1. -/
def c6State : LocalState :=
  ⟨[⟨1, "a", 2, "General"⟩],
   [⟨1, "INV-001", "v", "", [⟨"a", 2, 1, 2⟩], 2, 0, 0, 2, "2026-01-01T00:00:00.000Z"⟩],
   some "1", none, 2, 2⟩

/-- A product whose category is the empty string (falsy in JavaScript). -/
def c7Prod : Product := ⟨1, "x", 5, ""⟩

/-- A store holding only `c7Prod`. -/
def c7State : LocalState := ⟨[c7Prod], [], none, none, 2, 1⟩

/-- An ordinary invoice for the round-trip witness. -/
def c7Inv : HistoryItem :=
  ⟨1, "INV-001", "v", "", [⟨"t", 5, 1, 5⟩], 5, 0, 0, 5, "2026-01-01T00:00:00.000Z"⟩

/-- A store whose products all have non-empty categories. -/
def c7GoodState : LocalState :=
  ⟨[⟨1, "x", 5, "General"⟩, ⟨2, "y", 3, "Drinks"⟩], [c7Inv], some "1", none, 3, 2⟩

/-- A store holding an empty-category product *and* a non-empty history:
invoice tuples survive the round trip even here. -/
def c7MixedState : LocalState := ⟨[c7Prod], [c7Inv], some "1", none, 2, 2⟩

/-- A fault schedule whose very first storage operation (clearing the
products table) rejects. -/
def c10Faults : Nat → Option String :=
  fun k => if k = 0 then some "QuotaExceededError" else none

-- ── Concrete inputs used by the C8 witness ──────────────────────────────────

/-- Record A: local-only. -/
def c8A : Product := ⟨1, "A", 1, "General"⟩

/-- Record B: present on both sides, local version. -/
def c8B : Product := ⟨2, "B", 2, "General"⟩

/-- Record B: the remote copy with different field values. -/
def c8Bremote : Product := ⟨2, "B-remote", 9, "Old"⟩

/-- Record C: remote-only. -/
def c8C : Product := ⟨3, "C", 3, "General"⟩

/-- Local store holding {A, B}. -/
def c8Local : LocalState := ⟨[c8A, c8B], [], none, none, 4, 1⟩

/-- Remote store holding {B, C} (remote copy of B differs). -/
def c8Remote : RemoteState :=
  ⟨[(natRepr c8Bremote.id, c8Bremote), (natRepr c8C.id, c8C)], []⟩

-- ─────────────────────────────────────────────────────────────────────────────
-- Lemmas
-- ─────────────────────────────────────────────────────────────────────────────


theorem digitVal_digitOfNat {n : Nat} (h : n < 10) : digitVal (digitOfNat n) = n := by
  interval_cases n <;> rfl

theorem isDigit_digitOfNat (n : Nat) : (digitOfNat n).isDigit = true := by
  unfold digitOfNat
  rcases n with _ | _ | _ | _ | _ | _ | _ | _ | _ | n <;> rfl

theorem digitsToNat_append (xs : List Char) (c : Char) :
    digitsToNat (xs ++ [c]) = 10 * digitsToNat xs + digitVal c := by
  simp [digitsToNat, List.foldl_append]

theorem natToDigitsAux_all_digits :
    ∀ fuel n c, c ∈ natToDigitsAux fuel n → c.isDigit = true := by
  intro fuel
  induction fuel with
  | zero => intro n c h; simp [natToDigitsAux] at h
  | succ f ih =>
    intro n c h
    simp only [natToDigitsAux] at h
    by_cases h10 : n < 10
    · simp [h10] at h; subst h; exact isDigit_digitOfNat n
    · simp [h10, List.mem_append] at h
      rcases h with h | h
      · exact ih _ _ h
      · subst h; exact isDigit_digitOfNat _

theorem natToDigitsAux_ne_nil : ∀ fuel n, n < fuel → natToDigitsAux fuel n ≠ [] := by
  intro fuel
  cases fuel with
  | zero => intro n h; omega
  | succ f =>
    intro n _
    simp only [natToDigitsAux]
    by_cases h10 : n < 10
    · simp [h10]
    · simp [h10]

theorem digitsToNat_natToDigitsAux :
    ∀ fuel n, n < fuel → digitsToNat (natToDigitsAux fuel n) = n := by
  intro fuel
  induction fuel with
  | zero => intro n h; omega
  | succ f ih =>
    intro n hn
    simp only [natToDigitsAux]
    by_cases h10 : n < 10
    · simp [h10, digitsToNat, digitVal_digitOfNat h10]
    · have hdiv : n / 10 < f := by omega
      simp only [h10, if_false, digitsToNat_append, ih _ hdiv,
        digitVal_digitOfNat (Nat.mod_lt n (by omega))]
      omega

theorem natRepr_data_all_digits (n : Nat) :
    ∀ c ∈ (natRepr n).data, c.isDigit = true := by
  intro c h
  exact natToDigitsAux_all_digits _ _ _ h

theorem natRepr_data_ne_nil (n : Nat) : (natRepr n).data ≠ [] :=
  natToDigitsAux_ne_nil _ _ (Nat.lt_succ_self n)

theorem takeWhile_isDigit_of_all {cs : List Char}
    (h : ∀ c ∈ cs, c.isDigit = true) :
    cs.takeWhile (fun c => c.isDigit) = cs := by
  induction cs with
  | nil => rfl
  | cons x xs ih =>
    simp only [List.takeWhile_cons, h x (List.mem_cons_self x xs), if_true]
    exact congrArg (x :: ·) (ih (fun c hc => h c (List.mem_cons_of_mem x hc)))

theorem parseDigits_natRepr (n : Nat) : parseDigits (natRepr n).data = some n := by
  unfold parseDigits
  rw [takeWhile_isDigit_of_all (natRepr_data_all_digits n)]
  have hne := natRepr_data_ne_nil n
  simp only [List.isEmpty_iff, hne, if_false]
  exact congrArg some (digitsToNat_natToDigitsAux _ _ (Nat.lt_succ_self n))

theorem jsParseInt_natRepr (n : Nat) : jsParseInt (natRepr n) = some (n : Int) := by
  unfold jsParseInt
  rcases hd : (natRepr n).data with _ | ⟨c, t⟩
  · exact absurd hd (natRepr_data_ne_nil n)
  · have hc : c.isDigit = true := by
      apply natRepr_data_all_digits n
      rw [hd]; exact List.mem_cons_self c t
    have hne1 : c ≠ '-' := by rintro rfl; simp [Char.isDigit] at hc
    have hne2 : c ≠ '+' := by rintro rfl; simp [Char.isDigit] at hc
    simp only [hne1, hne2, if_false]
    rw [← hd, parseDigits_natRepr]
    rfl

theorem natRepr_inj {m n : Nat} (h : natRepr m = natRepr n) : m = n := by
  have := parseDigits_natRepr m
  rw [h, parseDigits_natRepr n] at this
  exact (Option.some_inj.mp this).symm

theorem natRepr_ne_empty (n : Nat) : natRepr n ≠ "" := by
  intro h
  exact natRepr_data_ne_nil n (congrArg String.data h)

theorem jsStringOfNum_succ (n : Nat) :
    jsStringOfNum (some ((n : Int) + 1)) = natRepr (n + 1) := by
  unfold jsStringOfNum
  have h1 : ¬ ((n : Int) + 1 < 0) := by omega
  have h2 : ((n : Int) + 1).toNat = n + 1 := by omega
  simp [h1, h2]

/-- A completed call on a counter row holding the decimal string for `n`:
the number read is `n`, the number issued is `n + 1`, the value persisted is
the decimal string for `n + 1`. -/
theorem getNextInvoiceNoCompute_natRepr (n : Nat) :
    getNextInvoiceNoCompute (some (natRepr n)) =
      ("INV-" ++ padStart (natRepr (n + 1)) 3 '0', natRepr (n + 1)) := by
  unfold getNextInvoiceNoCompute
  simp only [natRepr_ne_empty n, if_false, jsParseInt_natRepr, Option.map_some',
    jsStringOfNum_succ]

theorem jsRound_zero : jsRound 0 = 0 := by
  unfold jsRound
  norm_num

/-- `saveBill` fully evaluated: the draft's monetary fields are stored
verbatim, the allocator output becomes `invoice_no`, and the mirror outcome
is discarded. -/
theorem saveBill_eq (st : LocalState) (d : BillDraft) (now : String)
    (s : Bool) (r : Except String Unit) :
    saveBill st d now s r = Except.ok
      (⟨st.nextHistoryId, (getNextInvoiceNoCompute st.invoiceCounter).1,
        d.vendor_name, d.customer_name, d.items, d.grand_total, d.discount,
        d.discount_amount, d.final_total, now⟩,
       { st with
          invoiceCounter := some (getNextInvoiceNoCompute st.invoiceCounter).2,
          history := st.history ++
            [⟨st.nextHistoryId, (getNextInvoiceNoCompute st.invoiceCounter).1,
              d.vendor_name, d.customer_name, d.items, d.grand_total,
              d.discount, d.discount_amount, d.final_total, now⟩],
          nextHistoryId := st.nextHistoryId + 1 }) := by
  cases s <;> rcases r with _ | _ <;> rfl

theorem insertByCreatedAsc_perm (h : HistoryItem) (l : List HistoryItem) :
    List.Perm (insertByCreatedAsc h l) (h :: l) := by
  induction l with
  | nil => simp [insertByCreatedAsc]
  | cons x xs ih =>
    unfold insertByCreatedAsc
    split_ifs
    · exact List.Perm.refl _
    · exact (ih.cons x).trans (List.Perm.swap h x xs)

theorem sortByCreatedAsc_perm (l : List HistoryItem) : List.Perm (sortByCreatedAsc l) l := by
  induction l with
  | nil => exact List.Perm.refl _
  | cons x xs ih =>
    unfold sortByCreatedAsc
    exact (insertByCreatedAsc_perm x (sortByCreatedAsc xs)).trans (ih.cons x)

theorem historyByCreatedDesc_perm (st : LocalState) :
    List.Perm (historyByCreatedDesc st) st.history := by
  unfold historyByCreatedDesc
  exact (List.reverse_perm _).trans (sortByCreatedAsc_perm st.history)

/-- Category defaulting applied on reimport: `p.category || 'General'`. -/
theorem importedProductTuple_def (p : Product) :
    (p.name, p.price, if p.category = "" then "General" else p.category) =
      (if p.category = "" then (p.name, p.price, "General") else productTuple p) := by
  unfold productTuple
  split_ifs <;> rfl

theorem addImportedProducts_noFaults (ps : List Product) :
    ∀ (k : Nat) (st : LocalState),
      (addImportedProducts noFaults k ps st).2 = Except.ok () ∧
      (addImportedProducts noFaults k ps st).1.products.map productTuple =
        st.products.map productTuple ++
          ps.map (fun p =>
            (p.name, p.price, if p.category = "" then "General" else p.category)) ∧
      (addImportedProducts noFaults k ps st).1.history = st.history := by
  induction ps with
  | nil =>
    intro k st
    have hstep : addImportedProducts noFaults k [] st = (st, Except.ok ()) := rfl
    rw [hstep]
    exact ⟨rfl, by simp, rfl⟩
  | cons p ps ih =>
    intro k st
    have hstep : addImportedProducts noFaults k (p :: ps) st =
        addImportedProducts noFaults (k + 1) ps
          (productsAdd st p.name p.price
            (if p.category = "" then "General" else p.category)).2 := rfl
    rw [hstep]
    obtain ⟨h1, h2, h3⟩ := ih (k + 1)
      (productsAdd st p.name p.price
        (if p.category = "" then "General" else p.category)).2
    refine ⟨h1, ?_, by rw [h3]; rfl⟩
    rw [h2]
    simp [productsAdd, productTuple]

theorem addImportedHistory_noFaults (hs : List HistoryItem) :
    ∀ (k : Nat) (st : LocalState),
      (addImportedHistory noFaults k hs st).2 = Except.ok () ∧
      (addImportedHistory noFaults k hs st).1.history.map invoiceTuple =
        st.history.map invoiceTuple ++ hs.map invoiceTuple ∧
      (addImportedHistory noFaults k hs st).1.products = st.products := by
  induction hs with
  | nil =>
    intro k st
    have hstep : addImportedHistory noFaults k [] st = (st, Except.ok ()) := rfl
    rw [hstep]
    exact ⟨rfl, by simp, rfl⟩
  | cons h hs ih =>
    intro k st
    have hstep : addImportedHistory noFaults k (h :: hs) st =
        addImportedHistory noFaults (k + 1) hs
          (historyAdd st (fun id => { h with id := id })).2 := rfl
    rw [hstep]
    obtain ⟨h1, h2, h3⟩ := ih (k + 1)
      (historyAdd st (fun id => { h with id := id })).2
    refine ⟨h1, ?_, by rw [h3]; rfl⟩
    rw [h2]
    simp [historyAdd, invoiceTuple]

/-- A fault-free import of a well-shaped snapshot: the resulting product
tuples are the snapshot's (with falsy categories defaulted) and the
resulting invoice tuples are exactly the snapshot's. -/
theorem importJSON_parsed_noFaults (st : LocalState) (ps : List Product)
    (hs : List HistoryItem) :
    (importJSON st
        (ImportInput.parsed ⟨JsArrField.arr ps, JsArrField.arr hs⟩)
        noFaults).state.products.map productTuple =
      ps.map (fun p =>
        (p.name, p.price, if p.category = "" then "General" else p.category)) ∧
    (importJSON st
        (ImportInput.parsed ⟨JsArrField.arr ps, JsArrField.arr hs⟩)
        noFaults).state.history.map invoiceTuple = hs.map invoiceTuple := by
  rcases hAddP : addImportedProducts noFaults 2 ps
      { st with products := [], history := [] } with ⟨st2, r2⟩
  have hP := addImportedProducts_noFaults ps 2
    { st with products := [], history := [] }
  rw [hAddP] at hP
  obtain ⟨hok2, htup2, hhist2⟩ := hP
  simp only at hok2 htup2 hhist2
  subst hok2
  rcases hAddH : addImportedHistory noFaults (2 + ps.length) hs st2 with ⟨st3, r3⟩
  have hH := addImportedHistory_noFaults hs (2 + ps.length) st2
  rw [hAddH] at hH
  obtain ⟨hok3, htup3, hprod3⟩ := hH
  simp only at hok3 htup3 hprod3
  subst hok3
  have hbody : importJSONBody
      (ImportInput.parsed ⟨JsArrField.arr ps, JsArrField.arr hs⟩) noFaults st =
      (st3, Except.ok (ps.length, hs.length)) := by
    simp only [importJSONBody, noFaults, hAddP, hAddH]
  constructor
  · simp only [importJSON, hbody]
    rw [hprod3, htup2]
    simp
  · simp only [importJSON, hbody]
    rw [htup3, hhist2]
    simp

theorem getNextInvoiceNo_natRepr (st : LocalState) (n : Nat) :
    getNextInvoiceNo { st with invoiceCounter := some (natRepr n) } =
      ("INV-" ++ padStart (natRepr (n + 1)) 3 '0',
       { st with invoiceCounter := some (natRepr (n + 1)) }) := by
  unfold getNextInvoiceNo
  rw [getNextInvoiceNoCompute_natRepr]

-- ─────────────────────────────────────────────────────────────────────────────
-- Claims
-- ─────────────────────────────────────────────────────────────────────────────

/-- C1.  The claim says two `saveBill` invocations whose `getNextInvoiceNo`
read-increment-write sections interleave never receive the same invoice
number.  The code has no transaction around the section: when both
`db.settings.get` reads complete before either `db.settings.put` write, both
calls compute from the same row and receive the *same* number — on a fresh
device both get `"INV-001"` and the counter advances only once.  (The repo's
own documentation both calls `getNextInvoiceNo` atomic and lists this very
race as a known issue.) -/
theorem getNextInvoiceNo_interleaved_duplicates :
    (∀ counter : Option String,
      (getNextInvoiceNoInterleaved counter).1 =
        (getNextInvoiceNoInterleaved counter).2.1) ∧
    getNextInvoiceNoInterleaved none = ("INV-001", "INV-001", some "1") :=
  ⟨fun _ => rfl, rfl⟩

/-- C2.  A completed (non-interleaved) `getNextInvoiceNo` call reads the
counter (defaulting to 0 when the settings row is absent, so the first ever
call returns `"INV-001"`), increments it, persists the new value, and returns
`"INV-"` followed by the new value zero-padded to width 3 (wider when it
exceeds 999, e.g. `"INV-1000"`); successive completed calls return
successive, hence strictly increasing, numbers; `deleteHistoryItem` only
deletes the history row and never touches the counter setting. -/
theorem getNextInvoiceNo_sequential_spec :
    (∀ st : LocalState,
      getNextInvoiceNo { st with invoiceCounter := none } =
        ("INV-001", { st with invoiceCounter := some (natRepr 1) })) ∧
    (∀ (st : LocalState) (n : Nat),
      getNextInvoiceNo { st with invoiceCounter := some (natRepr n) } =
        ("INV-" ++ padStart (natRepr (n + 1)) 3 '0',
         { st with invoiceCounter := some (natRepr (n + 1)) })) ∧
    (∀ (st : LocalState) (n : Nat),
      (getNextInvoiceNo
        (getNextInvoiceNo { st with invoiceCounter := some (natRepr n) }).2).1 =
        "INV-" ++ padStart (natRepr (n + 2)) 3 '0') ∧
    (∀ st : LocalState,
      (getNextInvoiceNo { st with invoiceCounter := some (natRepr 999) }).1 =
        "INV-1000") ∧
    (∀ (st : LocalState) (id : Nat) (signedIn : Bool)
        (remote : Except String Unit),
      deleteHistoryItem st id signedIn remote =
        Except.ok (historyDelete st id)) ∧
    (∀ (st : LocalState) (id : Nat),
      (historyDelete st id).invoiceCounter = st.invoiceCounter ∧
      (historyDelete st id).vendorName = st.vendorName) := by
  refine ⟨fun st => rfl, fun st n => getNextInvoiceNo_natRepr st n,
    fun st n => ?_, fun st => rfl, fun st id s r => ?_, fun st id => ⟨rfl, rfl⟩⟩
  · rw [getNextInvoiceNo_natRepr st n]
    have := getNextInvoiceNo_natRepr { st with invoiceCounter := some (natRepr n) } (n + 1)
    simp only at this ⊢
    rw [this]
  · cases s with
    | false => rfl
    | true => cases r <;> rfl

/-- C3 counterexample.  The claim says the invariant
`discount_amount = round(grand_total * discount / 100)` is established at
save time for every draft `saveBill` accepts.  But `saveBill` computes
nothing: it persists the draft's totals verbatim, so a draft with
`grand_total = 10`, `discount = 0`, `discount_amount = 1` is accepted and
stored violating the formula. -/
theorem saveBill_invariant_counterexample :
    saveBill LocalState.empty c3BadDraft "2026-02-27T00:00:00.000Z" false
        (Except.ok ()) = Except.ok (c3BadSaved, c3BadState) ∧
    c3BadSaved ∈ c3BadState.history ∧ ¬ specInvoiceInvariant c3BadSaved := by
  refine ⟨rfl, by simp [c3BadState], ?_⟩
  intro h
  have h2 := h.2
  simp [c3BadSaved, jsRound_zero] at h2

/-- C3 amended.  `saveBill` stores the draft's monetary fields verbatim and
never recomputes them (at save or read time); consequently the persisted
invoice satisfies the invariant exactly when the accepted draft already did —
which holds for every draft the UI builds, since `handleShowBill` fixes
`discount = 0`, `discount_amount = 0`, `final_total = grand_total`. -/
theorem saveBill_invariant_amended :
    (∀ (st : LocalState) (d : BillDraft) (now : String) (s : Bool)
        (r : Except String Unit) (saved : HistoryItem) (st' : LocalState),
      saveBill st d now s r = Except.ok (saved, st') →
      saved.grand_total = d.grand_total ∧ saved.discount = d.discount ∧
      saved.discount_amount = d.discount_amount ∧
      saved.final_total = d.final_total ∧ saved.items = d.items ∧
      saved ∈ st'.history) ∧
    (∀ (st : LocalState) (d : BillDraft) (now : String) (s : Bool)
        (r : Except String Unit) (saved : HistoryItem) (st' : LocalState),
      saveBill st d now s r = Except.ok (saved, st') →
      specDraftInvariant d → specInvoiceInvariant saved) ∧
    (∀ (ps : List Product) (q : Nat → Nat) (v c : String) (d : BillDraft),
      handleShowBill ps q v c = some d → specDraftInvariant d) := by
  refine ⟨?_, ?_, ?_⟩
  · intro st d now s r saved st' h
    rw [saveBill_eq] at h
    obtain ⟨h1, h2⟩ := Prod.mk.injEq .. ▸ Except.ok.inj h
    subst h1; subst h2
    simp
  · intro st d now s r saved st' h hd
    rw [saveBill_eq] at h
    obtain ⟨h1, h2⟩ := Prod.mk.injEq .. ▸ Except.ok.inj h
    subst h1; subst h2
    obtain ⟨hd1, hd2⟩ := hd
    exact ⟨hd1, hd2⟩
  · intro ps q v c d h
    simp only [handleShowBill] at h
    split_ifs at h
    obtain rfl := Option.some.inj h
    exact ⟨by simp, by simp [jsRound_zero]⟩

/-- C3 witness: the amended theorem applied to the concrete cart built by
`handleShowBill` (one product priced 10, quantity 1) and saved on a fresh
store. -/
theorem saveBill_invariant_amended_witness :
    specDraftInvariant c3Draft ∧ specInvoiceInvariant c3Saved ∧
      c3Saved ∈ c3State.history := by
  have hdraft : specDraftInvariant c3Draft :=
    saveBill_invariant_amended.2.2 c3Products (fun _ => 1) "V" "" c3Draft rfl
  refine ⟨hdraft, ?_, ?_⟩
  · exact saveBill_invariant_amended.2.1 LocalState.empty c3Draft
      "2026-02-27T00:00:00.000Z" false (Except.ok ()) c3Saved c3State rfl hdraft
  · exact (saveBill_invariant_amended.1 LocalState.empty c3Draft
      "2026-02-27T00:00:00.000Z" false (Except.ok ()) c3Saved c3State rfl).2.2.2.2.2

/-- C4 counterexample.  The claim says `saveBill` defensively rejects an
empty-items draft before any storage write.  It does not: on a fresh store
the empty draft is accepted, a history row is inserted and the invoice
counter advances from absent to `"1"`. -/
theorem saveBill_empty_items_counterexample :
    c4EmptyDraft.items = [] ∧
    saveBill LocalState.empty c4EmptyDraft "2026-02-27T00:00:00.000Z" false
        (Except.ok ()) = Except.ok (c4EmptySaved, c4EmptyState) ∧
    c4EmptyState.history = [c4EmptySaved] ∧
    c4EmptyState.invoiceCounter = some "1" ∧
    LocalState.empty.invoiceCounter = none :=
  ⟨rfl, rfl, rfl, rfl, rfl⟩

/-- C4 amended.  `saveBill` itself performs no validation: every empty-items
draft is persisted (a history row appended, the counter advanced).  The
rejection the spec wants lives only in the caller: `handleShowBill` returns
nothing when no product has a positive quantity, and every draft it does
produce has a non-empty items list. -/
theorem saveBill_empty_items_amended :
    (∀ (st : LocalState) (d : BillDraft) (now : String) (s : Bool)
        (r : Except String Unit),
      d.items = [] →
      ∃ (saved : HistoryItem) (st' : LocalState),
        saveBill st d now s r = Except.ok (saved, st') ∧
        st'.history = st.history ++ [saved] ∧
        st'.invoiceCounter =
          some (getNextInvoiceNoCompute st.invoiceCounter).2) ∧
    (∀ (ps : List Product) (q : Nat → Nat) (v c : String),
      ps.filter (fun p => 0 < q p.id) = [] → handleShowBill ps q v c = none) ∧
    (∀ (ps : List Product) (q : Nat → Nat) (v c : String) (d : BillDraft),
      handleShowBill ps q v c = some d → d.items ≠ []) := by
  refine ⟨?_, ?_, ?_⟩
  · intro st d now s r _
    exact ⟨_, _, saveBill_eq st d now s r, rfl, rfl⟩
  · intro ps q v c hfilter
    simp only [handleShowBill, hfilter]
    simp
  · intro ps q v c d h
    simp only [handleShowBill] at h
    split_ifs at h with h1 h2
    obtain rfl := Option.some.inj h
    simpa using h1

/-- C4 witness: the amended theorem at concrete inputs — the empty draft is
persisted on a fresh store; an empty cart never reaches `saveBill`; the
one-item cart produces a draft with a non-empty items list. -/
theorem saveBill_empty_items_amended_witness :
    (∃ (saved : HistoryItem) (st' : LocalState),
      saveBill LocalState.empty c4EmptyDraft "2026-02-27T00:00:00.000Z" false
          (Except.ok ()) = Except.ok (saved, st') ∧
      st'.history = LocalState.empty.history ++ [saved] ∧
      st'.invoiceCounter =
        some (getNextInvoiceNoCompute LocalState.empty.invoiceCounter).2) ∧
    handleShowBill [] (fun _ => 0) "NoItems" "" = none ∧
    c4Draft.items ≠ [] :=
  ⟨saveBill_empty_items_amended.1 LocalState.empty c4EmptyDraft
      "2026-02-27T00:00:00.000Z" false (Except.ok ()) rfl,
   saveBill_empty_items_amended.2.1 [] (fun _ => 0) "NoItems" "" rfl,
   saveBill_empty_items_amended.2.2 c4Products (fun _ => 1) "V" "" c4Draft rfl⟩

/-- C5 counterexample.  The claim says `addProduct` rejects an empty name or
a negative price and inserts nothing.  The `addProduct` callback validates
nothing: called with name `""` and price `-5` it succeeds and the malformed
product is inserted locally. -/
theorem addProduct_validation_counterexample :
    addProduct LocalState.empty "" (-5) "General" false (Except.ok ()) =
      Except.ok c5BadState ∧
    c5BadProduct ∈ c5BadState.products ∧
    c5BadProduct.name = "" ∧ c5BadProduct.price < 0 :=
  ⟨rfl, by simp [c5BadState], rfl, by decide⟩

/-- C5 amended.  The validation lives in the caller `SettingsView.handleAdd`:
a blank (empty or whitespace-only) name, an unparsable (`NaN`) price or a
negative price makes `handleAdd` return without inserting anything; with a
non-blank name and price ≥ 0 it calls `addProduct(name.trim(), price,
'General')`.  `addProduct` itself inserts unconditionally (and resolves with
no value — `Promise<void>` — rather than returning the product). -/
theorem addProduct_validation_amended :
    (∀ (st : LocalState) (name : String) (pOpt : Option Rat) (s : Bool)
        (r : Except String Unit),
      jsTrim name = "" → handleAdd st name pOpt s r = Except.ok st) ∧
    (∀ (st : LocalState) (name : String) (s : Bool) (r : Except String Unit),
      handleAdd st name none s r = Except.ok st) ∧
    (∀ (st : LocalState) (name : String) (p : Rat) (s : Bool)
        (r : Except String Unit),
      p < 0 → handleAdd st name (some p) s r = Except.ok st) ∧
    (∀ (st : LocalState) (name : String) (p : Rat) (s : Bool)
        (r : Except String Unit),
      jsTrim name ≠ "" → ¬ p < 0 →
      handleAdd st name (some p) s r =
        addProduct st (jsTrim name) p "General" s r) ∧
    (∀ (st : LocalState) (name : String) (price : Rat) (cat : String)
        (s : Bool) (r : Except String Unit),
      addProduct st name price cat s r =
        Except.ok (productsAdd st name price cat).2 ∧
      (⟨st.nextProductId, name, price, cat⟩ : Product) ∈
        (productsAdd st name price cat).2.products) := by
  refine ⟨?_, ?_, ?_, ?_, ?_⟩
  · intro st name pOpt s r h
    simp only [handleAdd, h, if_true]
    cases pOpt <;> rfl
  · intro st name s r
    simp only [handleAdd]
    split_ifs <;> rfl
  · intro st name p s r hp
    simp only [handleAdd]
    split_ifs <;> rfl
  · intro st name p s r hn hp
    simp only [handleAdd, hn, hp, if_false, if_neg hn, if_neg hp]
  · intro st name price cat s r
    constructor
    · cases s <;> rcases r with _ | _ <;> rfl
    · simp [productsAdd]

/-- C5 witness: the amended theorem at concrete inputs — whitespace-only
name, `NaN` price, negative price each leave the store untouched; a valid
call inserts, and `addProduct` inserts even without validation. -/
theorem addProduct_validation_amended_witness :
    handleAdd LocalState.empty "  " (some 20) false (Except.ok ()) =
        Except.ok LocalState.empty ∧
    handleAdd LocalState.empty "Tea" none false (Except.ok ()) =
        Except.ok LocalState.empty ∧
    handleAdd LocalState.empty "Tea" (some (-1)) false (Except.ok ()) =
        Except.ok LocalState.empty ∧
    handleAdd LocalState.empty "Tea " (some 20) false (Except.ok ()) =
        addProduct LocalState.empty "Tea" 20 "General" false (Except.ok ()) ∧
    (⟨1, "Tea", 20, "General"⟩ : Product) ∈
      (productsAdd LocalState.empty "Tea" 20 "General").2.products :=
  ⟨addProduct_validation_amended.1 LocalState.empty "  " (some 20) false
      (Except.ok ()) (by decide),
   addProduct_validation_amended.2.1 LocalState.empty "Tea" false (Except.ok ()),
   addProduct_validation_amended.2.2.1 LocalState.empty "Tea" (-1) false
      (Except.ok ()) (by decide),
   by
     have h := addProduct_validation_amended.2.2.2.1 LocalState.empty "Tea "
       20 false (Except.ok ()) (by decide) (by decide)
     simpa using h,
   (addProduct_validation_amended.2.2.2.2 LocalState.empty "Tea" 20 "General"
      false (Except.ok ())).2⟩

/-- C6.  `importJSON` validates the shape (`Array.isArray` on both fields)
before clearing anything, and a read/parse failure is thrown even earlier:
for every malformed input — unreadable/unparsable file, or either field not
an array — both collections are left exactly as they were, under every
storage fault schedule. -/
theorem importJSON_validates_before_clearing :
    (∀ (st : LocalState) (faults : Nat → Option String) (e : String),
      (importJSON st (ImportInput.readError e) faults).state.products =
          st.products ∧
      (importJSON st (ImportInput.readError e) faults).state.history =
          st.history) ∧
    (∀ (st : LocalState) (faults : Nat → Option String) (d : ParsedBackup),
      d.products = JsArrField.nonArray ∨ d.history = JsArrField.nonArray →
      (importJSON st (ImportInput.parsed d) faults).state.products =
          st.products ∧
      (importJSON st (ImportInput.parsed d) faults).state.history =
          st.history) := by
  refine ⟨fun st faults e => ⟨rfl, rfl⟩, ?_⟩
  rintro st faults ⟨dp, dh⟩ (h | h) <;> simp only at h <;> subst h
  · cases dh <;> exact ⟨rfl, rfl⟩
  · cases dp <;> exact ⟨rfl, rfl⟩

/-- C6 witness: the theorem at a non-empty store — a parse failure and a
snapshot whose `products` field is not an array each leave both collections
untouched. -/
theorem importJSON_validates_before_clearing_witness :
    ((importJSON c6State (ImportInput.readError "Unexpected token") noFaults).state.products
        = c6State.products ∧
     (importJSON c6State (ImportInput.readError "Unexpected token") noFaults).state.history
        = c6State.history) ∧
    ((importJSON c6State
        (ImportInput.parsed ⟨JsArrField.nonArray, JsArrField.arr []⟩)
        noFaults).state.products = c6State.products ∧
     (importJSON c6State
        (ImportInput.parsed ⟨JsArrField.nonArray, JsArrField.arr []⟩)
        noFaults).state.history = c6State.history) :=
  ⟨importJSON_validates_before_clearing.1 c6State noFaults "Unexpected token",
   importJSON_validates_before_clearing.2 c6State noFaults
     ⟨JsArrField.nonArray, JsArrField.arr []⟩ (Or.inl rfl)⟩

/-- C10.  The promise `importJSON` returns never rejects: the whole body is
inside `try/catch` and the catch only shows a toast, so for every input
(read/parse failure, wrong shape, or any storage fault during clearing or
reinsertion) the caller sees a normally-resolved `Promise<void>`; a
failed import is distinguishable only by the toast, as the concrete
error-path and success-path conjuncts show. -/
theorem importJSON_never_rejects :
    (∀ (st : LocalState) (input : ImportInput) (faults : Nat → Option String),
      (importJSON st input faults).promise = Except.ok ()) ∧
    (importJSON c6State (ImportInput.readError "boom") noFaults).toast =
        Toast.error "Import failed: boom" ∧
    (importJSON c6State
        (ImportInput.parsed ⟨JsArrField.arr [], JsArrField.arr []⟩)
        c10Faults).toast = Toast.error "Import failed: QuotaExceededError" ∧
    (importJSON c6State
        (ImportInput.parsed ⟨JsArrField.arr [], JsArrField.arr []⟩)
        noFaults).toast = Toast.success "Restored 0 products & 0 invoices" := by
  refine ⟨?_, rfl, rfl, rfl⟩
  intro st input faults
  unfold importJSON
  rcases h : importJSONBody input faults st with ⟨st', r⟩
  cases r <;> simp

/-- C7 counterexample.  The claim says the round trip preserves the multiset
of `(name, price, category)` tuples for every local state.  Reimport runs
`p.category || 'General'`, so a product whose category is the empty string
comes back as `"General"`: the tuple multiset changes. -/
theorem export_import_roundtrip_counterexample :
    (importJSON c7State
      (ImportInput.parsed ⟨JsArrField.arr (exportSnapshot c7State).1,
                           JsArrField.arr (exportSnapshot c7State).2⟩)
      noFaults).state.products.map productTuple = [("x", 5, "General")] ∧
    c7State.products.map productTuple = [("x", 5, "")] ∧
    ¬ (Multiset.ofList ([("x", 5, "General")] : List (String × Rat × String)) =
       Multiset.ofList ([("x", 5, "")] : List (String × Rat × String))) := by
  refine ⟨rfl, rfl, ?_⟩
  decide

/-- C7 amended.  `importSnapshot(exportSnapshot())` preserves the multiset of
invoice `(invoice_no, items, final_total)` tuples for *every* local state,
and preserves the multiset of product `(name, price, category)` tuples for
every state whose product categories are all non-empty (a falsy category is
replaced by `"General"` on reimport); ids may differ after reimport. -/
theorem export_import_roundtrip_amended :
    (∀ st : LocalState, (∀ p ∈ st.products, p.category ≠ "") →
      (((importJSON st
          (ImportInput.parsed ⟨JsArrField.arr (exportSnapshot st).1,
                               JsArrField.arr (exportSnapshot st).2⟩)
          noFaults).state.products.map productTuple :
            List (String × Rat × String)) : Multiset (String × Rat × String)) =
        ((st.products.map productTuple : List (String × Rat × String)) :
            Multiset (String × Rat × String))) ∧
    (∀ st : LocalState,
      (((importJSON st
          (ImportInput.parsed ⟨JsArrField.arr (exportSnapshot st).1,
                               JsArrField.arr (exportSnapshot st).2⟩)
          noFaults).state.history.map invoiceTuple :
            List (String × List BillItem × Rat)) :
              Multiset (String × List BillItem × Rat)) =
        ((st.history.map invoiceTuple : List (String × List BillItem × Rat)) :
            Multiset (String × List BillItem × Rat))) := by
  constructor
  · intro st hcat
    obtain ⟨hp, _⟩ :=
      importJSON_parsed_noFaults st st.products (historyByCreatedDesc st)
    show ((importJSON st
      (ImportInput.parsed ⟨JsArrField.arr st.products,
                           JsArrField.arr (historyByCreatedDesc st)⟩)
      noFaults).state.products.map productTuple : Multiset (String × Rat × String)) = _
    rw [hp]
    congr 1
    apply List.map_congr_left
    intro p hpmem
    simp [hcat p hpmem, productTuple]
  · intro st
    obtain ⟨_, hh⟩ :=
      importJSON_parsed_noFaults st st.products (historyByCreatedDesc st)
    show ((importJSON st
      (ImportInput.parsed ⟨JsArrField.arr st.products,
                           JsArrField.arr (historyByCreatedDesc st)⟩)
      noFaults).state.history.map invoiceTuple : Multiset (String × List BillItem × Rat)) = _
    rw [hh]
    exact Multiset.coe_eq_coe.mpr ((historyByCreatedDesc_perm st).map invoiceTuple)

/-- C7 witness: the product half at a concrete store with two products of
non-empty categories, and the unconditional invoice half at a store that
holds an empty-category product *and* a non-empty history. -/
theorem export_import_roundtrip_amended_witness :
    (((importJSON c7GoodState
        (ImportInput.parsed ⟨JsArrField.arr (exportSnapshot c7GoodState).1,
                             JsArrField.arr (exportSnapshot c7GoodState).2⟩)
        noFaults).state.products.map productTuple :
          List (String × Rat × String)) : Multiset (String × Rat × String)) =
      ((c7GoodState.products.map productTuple : List (String × Rat × String)) :
          Multiset (String × Rat × String)) ∧
    (((importJSON c7MixedState
        (ImportInput.parsed ⟨JsArrField.arr (exportSnapshot c7MixedState).1,
                             JsArrField.arr (exportSnapshot c7MixedState).2⟩)
        noFaults).state.history.map invoiceTuple :
          List (String × List BillItem × Rat)) :
            Multiset (String × List BillItem × Rat)) =
      ((c7MixedState.history.map invoiceTuple :
          List (String × List BillItem × Rat)) :
            Multiset (String × List BillItem × Rat)) :=
  ⟨export_import_roundtrip_amended.1 c7GoodState (by decide),
   export_import_roundtrip_amended.2 c7MixedState⟩

/-- C8.  Sign-in reconciliation on local {A, B} and remote {B, C} (by id,
with distinct ids and the remote copy of B carrying different field values):
after push-then-pull, local holds exactly [A, B, C] — B's local record
untouched by the pull — and the remote documents hold the multiset {A, B, C}
with B's *local* field values (the remote copy was overwritten by the push). -/
theorem signIn_merge_spec (A B B' C : Product) (st : LocalState)
    (r : RemoteState)
    (hstp : st.products = [A, B]) (hsth : st.history = [])
    (hrp : r.products = [(natRepr B.id, B'), (natRepr C.id, C)])
    (hrh : r.history = [])
    (_hB : B'.id = B.id)
    (hAB : A.id ≠ B.id) (hAC : A.id ≠ C.id) (hBC : B.id ≠ C.id) :
    (signInReconcile st r).1.products = [A, B, C] ∧
    (signInReconcile st r).2.products =
      [(natRepr B.id, B), (natRepr C.id, C), (natRepr A.id, A)] ∧
    Multiset.ofList ((signInReconcile st r).2.products.map Prod.snd) =
      Multiset.ofList [A, B, C] := by
  have kBA : natRepr B.id ≠ natRepr A.id := fun h => hAB (natRepr_inj h).symm
  have kCA : natRepr C.id ≠ natRepr A.id := fun h => hAC (natRepr_inj h).symm
  have kCB : natRepr C.id ≠ natRepr B.id := fun h => hBC (natRepr_inj h).symm
  have kAB : natRepr A.id ≠ natRepr B.id := fun h => hAB (natRepr_inj h)
  obtain ⟨sp, sh, ic, vn, np, nh⟩ := st
  obtain ⟨rp, rh⟩ := r
  simp only at hstp hsth hrp hrh
  subst hstp; subst hsth; subst hrp; subst hrh
  have hr1 : (pushAllToFirestore ⟨[A, B], [], ic, vn, np, nh⟩
        ⟨[(natRepr B.id, B'), (natRepr C.id, C)], []⟩).products =
      [(natRepr B.id, B), (natRepr C.id, C), (natRepr A.id, A)] := by
    unfold pushAllToFirestore historyByCreatedDesc
    simp [sortByCreatedAsc, pushProductToFirestore, setDocIn,
      kBA, kCA, kCB, kAB]
  have hr1h : (pushAllToFirestore ⟨[A, B], [], ic, vn, np, nh⟩
        ⟨[(natRepr B.id, B'), (natRepr C.id, C)], []⟩).history = [] := by
    unfold pushAllToFirestore historyByCreatedDesc
    simp [sortByCreatedAsc, pushProductToFirestore, setDocIn,
      kBA, kCA, kCB, kAB]
  have hsync : (syncFromFirestore ⟨[A, B], [], ic, vn, np, nh⟩
      (pushAllToFirestore ⟨[A, B], [], ic, vn, np, nh⟩
        ⟨[(natRepr B.id, B'), (natRepr C.id, C)], []⟩)).products =
      [A, B, C] := by
    unfold syncFromFirestore
    rw [hr1, hr1h]
    simp [productsGet, productsPut, List.find?, hAB, hAC, hBC,
      (fun h => hAB h.symm : B.id ≠ A.id), (fun h => hAC h.symm : C.id ≠ A.id),
      (fun h => hBC h.symm : C.id ≠ B.id)]
  refine ⟨hsync, hr1, ?_⟩
  show Multiset.ofList ((pushAllToFirestore ⟨[A, B], [], ic, vn, np, nh⟩
      ⟨[(natRepr B.id, B'), (natRepr C.id, C)], []⟩).products.map Prod.snd) =
    Multiset.ofList [A, B, C]
  rw [hr1]
  show Multiset.ofList [B, C, A] = Multiset.ofList [A, B, C]
  exact Multiset.coe_eq_coe.mpr
    (((List.Perm.swap A C []).cons B).trans (List.Perm.swap A B [C]))

/-- C8 witness: the merge theorem at the concrete stores, local {A, B} and
remote {B-remote, C}. -/
theorem signIn_merge_spec_witness :
    (signInReconcile c8Local c8Remote).1.products = [c8A, c8B, c8C] ∧
    (signInReconcile c8Local c8Remote).2.products =
      [(natRepr c8B.id, c8B), (natRepr c8C.id, c8C), (natRepr c8A.id, c8A)] ∧
    Multiset.ofList ((signInReconcile c8Local c8Remote).2.products.map Prod.snd) =
      Multiset.ofList [c8A, c8B, c8C] :=
  signIn_merge_spec c8A c8B c8Bremote c8C c8Local c8Remote rfl rfl rfl rfl rfl
    (by decide) (by decide) (by decide)

/-- C9.  Remote-mirror failures never propagate: for every mutation and every
outcome of the mirrored remote call (including rejection), the operation
resolves successfully with exactly the local write committed — `addProduct`,
`updateProduct`, `deleteProduct` and `deleteHistoryItem` return the updated
local store, and `saveBill` returns the persisted invoice, which is
retrievable from local history. -/
theorem remote_failures_never_propagate :
    (∀ (st : LocalState) (name : String) (price : Rat) (cat : String)
        (s : Bool) (r : Except String Unit),
      addProduct st name price cat s r =
        Except.ok (productsAdd st name price cat).2) ∧
    (∀ (st : LocalState) (id : Nat) (name : String) (price : Rat)
        (cat : String) (s : Bool) (r : Except String Unit),
      updateProduct st id name price cat s r =
        Except.ok (productsUpdate st id name price cat)) ∧
    (∀ (st : LocalState) (id : Nat) (s : Bool) (r : Except String Unit),
      deleteProduct st id s r = Except.ok (productsDelete st id)) ∧
    (∀ (st : LocalState) (d : BillDraft) (now : String) (s : Bool)
        (r : Except String Unit),
      ∃ (saved : HistoryItem) (st' : LocalState),
        saveBill st d now s r = Except.ok (saved, st') ∧ saved ∈ st'.history) ∧
    (∀ (st : LocalState) (id : Nat) (s : Bool) (r : Except String Unit),
      deleteHistoryItem st id s r = Except.ok (historyDelete st id)) := by
  refine ⟨?_, ?_, ?_, ?_, ?_⟩
  · intro st name price cat s r
    cases s <;> rcases r with _ | _ <;> rfl
  · intro st id name price cat s r
    cases s <;> rcases r with _ | _ <;> rfl
  · intro st id s r
    cases s <;> rcases r with _ | _ <;> rfl
  · intro st d now s r
    exact ⟨_, _, saveBill_eq st d now s r, by simp⟩
  · intro st id s r
    cases s <;> rcases r with _ | _ <;> rfl

end VendorCalc
